import Mathlib

/-!
# nicegraf, `source/ngf-common/macros.h`

A shallow embedding of the utility layer of nicegraf: the size-alignment helper
`ngfi_align_size`, the allocation macros that go through the process-wide table
`NGF_ALLOC_CB`, and the diagnostic macros that go through `ngfi_diag_info`.

Machine integers of type `size_t` are natural numbers below `2 ^ 64`, with every
arithmetic result reduced modulo `2 ^ 64`.  Calls through function pointers are
modelled by a table of host behaviours indexed by the address of the function, and
every call the macros make is appended to a call log.
-/

namespace Nicegraf

/-! ## Definitions -/

/-- Width of `size_t` in bits on the 64-bit targets. -/
def SIZE_BITS : Nat := 64

/-- Number of values of `size_t`; arithmetic on `size_t` is taken modulo this. -/
def SIZE_MOD : Nat := 2 ^ SIZE_BITS

/-- Largest value of `size_t`. -/
def SIZE_MAX : Nat := SIZE_MOD - 1

/-- Unsigned addition `a + b` on `size_t`, wrapping. -/
def size_add (a b : Nat) : Nat := (a + b) % SIZE_MOD

/-- Unsigned subtraction `a - b` on `size_t`, wrapping. -/
def size_sub (a b : Nat) : Nat := (a % SIZE_MOD + SIZE_MOD - b % SIZE_MOD) % SIZE_MOD

/-- Bitwise complement `~a` on `size_t`. -/
def size_not (a : Nat) : Nat := SIZE_MAX - a % SIZE_MOD

/-- Body of `ngfi_align_size` (macros.h, lines 118-124) with the value `A` of
`NGFI_MAX_ALIGNMENT` as a parameter:
`align_mask = A - 1u; q = s & ~align_mask; r = s & align_mask;
 return q + ((r == 0) ? 0 : A);` -/
def ngfi_align_size_at (A : Nat) (s : Nat) : Nat :=
  let align_mask := size_sub A 1
  let q := s &&& size_not align_mask
  let r := s &&& align_mask
  size_add q (if r = 0 then 0 else A)

/-- Value of `NGFI_MAX_ALIGNMENT`, that is `sizeof(long double)`, on x86-64. -/
def NGFI_MAX_ALIGNMENT : Nat := 16

/-- The function `ngfi_align_size` of macros.h. -/
def ngfi_align_size (s : Nat) : Nat := ngfi_align_size_at NGFI_MAX_ALIGNMENT s

/-- Data pointers are addresses. -/
abbrev Ptr : Type := Nat

/-- Function pointers are addresses of host code. -/
abbrev FnPtr : Type := Nat

/-- The null pointer. -/
def NULL : Nat := 0

/-- Modelled from the spec: the severity enumeration of nicegraf.h (`DiagnosticLevel`,
Info, Warning and Error), under the names macros.h uses for its members. -/
inductive ngf_diagnostic_message_type where
  | NGF_DIAGNOSTIC_INFO
  | NGF_DIAGNOSTIC_WARNING
  | NGF_DIAGNOSTIC_ERROR
  deriving DecidableEq

/-- Modelled from the spec: the allocation-callback table of nicegraf.h, two function
references `allocate(size, count, userdata)` and `free(pointer, size, count, userdata)`
and an opaque `userdata` pointer. -/
structure ngf_allocation_callbacks where
  allocate : FnPtr
  free : FnPtr
  userdata : Ptr
  deriving DecidableEq

/-- Modelled from the spec: the diagnostic record of nicegraf.h, a callback reference
and an opaque `userdata` pointer.  A null `callback` means that no record is active. -/
structure ngf_diagnostic_info where
  callback : FnPtr
  userdata : Ptr
  deriving DecidableEq

/-- One value passed in the variadic part of a call. -/
inductive VarArg where
  | int (v : Int)
  | str (s : String)
  | ptr (p : Ptr)
  deriving DecidableEq

/-- One call made through a function pointer, with the address called and the
arguments as passed. -/
inductive Call where
  | allocate (fn : FnPtr) (obj_size nobjs : Nat) (userdata : Ptr)
  | free (fn : FnPtr) (ptr : Ptr) (obj_size nobjs : Nat) (userdata : Ptr)
  | diag (fn : FnPtr) (level : ngf_diagnostic_message_type) (userdata : Ptr)
      (fmt : String) (args : List VarArg)
  deriving DecidableEq

/-- The globals of macros.h, `NGF_ALLOC_CB` (a pointer to a table, `none` when null)
and `ngfi_diag_info`, together with the rest of the memory of the process. -/
structure Globals (W : Type) where
  NGF_ALLOC_CB : Option ngf_allocation_callbacks
  ngfi_diag_info : ngf_diagnostic_info
  host : W
  deriving DecidableEq

/-- What the code behind each function address does.  A callback is arbitrary host
code: it may change any global. -/
structure HostCode (W : Type) where
  allocate : FnPtr → Nat → Nat → Ptr → Globals W → Ptr × Globals W
  free : FnPtr → Ptr → Nat → Nat → Ptr → Globals W → Globals W
  diag : FnPtr → ngf_diagnostic_message_type → Ptr → String → List VarArg →
    Globals W → Globals W

/-- The globals and the log of the calls made so far through function pointers. -/
structure Machine (W : Type) where
  globals : Globals W
  calls : List Call
  deriving DecidableEq

/-- The macro `NGFI_ALLOC(type)`:
`(type*)NGF_ALLOC_CB->allocate(sizeof(type), 1, NGF_ALLOC_CB->userdata)`.
The result is `none` when `NGF_ALLOC_CB` is null. -/
def NGFI_ALLOC {W : Type} (code : HostCode W) (sizeof_type : Nat) (m : Machine W) :
    Option (Ptr × Machine W) :=
  match m.globals.NGF_ALLOC_CB with
  | none => none
  | some cb =>
    let r := code.allocate cb.allocate sizeof_type 1 cb.userdata m.globals
    some (r.1, { globals := r.2,
                 calls := m.calls ++ [Call.allocate cb.allocate sizeof_type 1 cb.userdata] })

/-- The macro `NGFI_ALLOCN(type, n)`:
`(type*)NGF_ALLOC_CB->allocate(sizeof(type), n, NGF_ALLOC_CB->userdata)`. -/
def NGFI_ALLOCN {W : Type} (code : HostCode W) (sizeof_type n : Nat) (m : Machine W) :
    Option (Ptr × Machine W) :=
  match m.globals.NGF_ALLOC_CB with
  | none => none
  | some cb =>
    let r := code.allocate cb.allocate sizeof_type n cb.userdata m.globals
    some (r.1, { globals := r.2,
                 calls := m.calls ++ [Call.allocate cb.allocate sizeof_type n cb.userdata] })

/-- The macro `NGFI_FREE(ptr)`:
`NGF_ALLOC_CB->free((void*)(ptr), sizeof(*ptr), 1, NGF_ALLOC_CB->userdata)`. -/
def NGFI_FREE {W : Type} (code : HostCode W) (ptr : Ptr) (sizeof_pointee : Nat)
    (m : Machine W) : Option (Machine W) :=
  match m.globals.NGF_ALLOC_CB with
  | none => none
  | some cb =>
    some { globals := code.free cb.free ptr sizeof_pointee 1 cb.userdata m.globals,
           calls := m.calls ++ [Call.free cb.free ptr sizeof_pointee 1 cb.userdata] }

/-- The macro `NGFI_FREEN(ptr, n)`:
`NGF_ALLOC_CB->free((void*)(ptr), sizeof(*ptr), n, NGF_ALLOC_CB->userdata)`. -/
def NGFI_FREEN {W : Type} (code : HostCode W) (ptr : Ptr) (sizeof_pointee n : Nat)
    (m : Machine W) : Option (Machine W) :=
  match m.globals.NGF_ALLOC_CB with
  | none => none
  | some cb =>
    some { globals := code.free cb.free ptr sizeof_pointee n cb.userdata m.globals,
           calls := m.calls ++ [Call.free cb.free ptr sizeof_pointee n cb.userdata] }

/-- The macro `NGFI_DIAG_MSG(level, fmt, ...)`:
`if (ngfi_diag_info.callback) {
   ngfi_diag_info.callback(level, ngfi_diag_info.userdata, fmt, ##__VA_ARGS__); }`. -/
def NGFI_DIAG_MSG {W : Type} (code : HostCode W) (level : ngf_diagnostic_message_type)
    (fmt : String) (args : List VarArg) (m : Machine W) : Machine W :=
  if m.globals.ngfi_diag_info.callback ≠ NULL then
    { globals := code.diag m.globals.ngfi_diag_info.callback level
        m.globals.ngfi_diag_info.userdata fmt args m.globals,
      calls := m.calls ++ [Call.diag m.globals.ngfi_diag_info.callback level
        m.globals.ngfi_diag_info.userdata fmt args] }
  else m

/-- The macro `NGFI_DIAG_INFO(fmt, ...)`. -/
def NGFI_DIAG_INFO {W : Type} (code : HostCode W) (fmt : String) (args : List VarArg)
    (m : Machine W) : Machine W :=
  NGFI_DIAG_MSG code ngf_diagnostic_message_type.NGF_DIAGNOSTIC_INFO fmt args m

/-- The macro `NGFI_DIAG_WARNING(fmt, ...)`. -/
def NGFI_DIAG_WARNING {W : Type} (code : HostCode W) (fmt : String) (args : List VarArg)
    (m : Machine W) : Machine W :=
  NGFI_DIAG_MSG code ngf_diagnostic_message_type.NGF_DIAGNOSTIC_WARNING fmt args m

/-- The macro `NGFI_DIAG_ERROR(fmt, ...)`. -/
def NGFI_DIAG_ERROR {W : Type} (code : HostCode W) (fmt : String) (args : List VarArg)
    (m : Machine W) : Machine W :=
  NGFI_DIAG_MSG code ngf_diagnostic_message_type.NGF_DIAGNOSTIC_ERROR fmt args m

/-- The texts received as third argument by the diagnostic calls of a log, in order. -/
def diagMessages : List Call → List String
  | [] => []
  | Call.diag _ _ _ fmt _ :: cs => fmt :: diagMessages cs
  | Call.allocate _ _ _ _ :: cs => diagMessages cs
  | Call.free _ _ _ _ _ :: cs => diagMessages cs

/-- A host whose callbacks change nothing; its allocator hands back the null pointer. -/
def inertHost : HostCode Unit where
  allocate := fun _ _ _ _ g => (NULL, g)
  free := fun _ _ _ _ _ g => g
  diag := fun _ _ _ _ _ g => g

/-- An allocation table with `allocate` at 0x100, `free` at 0x200, userdata 0x10. -/
def sampleTable : ngf_allocation_callbacks :=
  { allocate := 0x100, free := 0x200, userdata := 0x10 }

/-- The diagnostic record of `sampleMachine`: callback at 0x300, userdata 0x20. -/
def sampleDiag : ngf_diagnostic_info := { callback := 0x300, userdata := 0x20 }

/-- A state with `sampleTable` installed, a diagnostic callback at 0x300 and an empty
call log. -/
def sampleMachine : Machine Unit where
  globals := { NGF_ALLOC_CB := some sampleTable,
               ngfi_diag_info := sampleDiag,
               host := () }
  calls := []

/-- A state with `sampleTable` installed, no diagnostic callback and an empty call
log. -/
def quietMachine : Machine Unit where
  globals := { NGF_ALLOC_CB := some sampleTable,
               ngfi_diag_info := { callback := NULL, userdata := 0x20 },
               host := () }
  calls := []

/-- How a statement inside a function body ends: control goes on to the next
statement, the enclosing function returns a value, or the process exits with a
status. -/
inductive Flow (E W : Type) where
  | next (m : Machine W)
  | returned (err_code : E) (m : Machine W)
  | exited (status : Nat) (m : Machine W)

/-- Sequencing of a statement with the statements after it: they run only when
control goes on. -/
def Flow.andThen {E W : Type} (f : Flow E W) (rest : Machine W → Flow E W) : Flow E W :=
  match f with
  | Flow.next m => rest m
  | Flow.returned e m => Flow.returned e m
  | Flow.exited st m => Flow.exited st m

/-- The macro `NGFI_CHECK_CONDITION(cond, err_code, err_fmtstring, ...)`:
`if (!(cond)) { NGFI_DIAG_ERROR(err_fmtstring, ##__VA_ARGS__); return err_code; }`.
The error code type of nicegraf.h is the parameter `E`. -/
def NGFI_CHECK_CONDITION {E W : Type} (code : HostCode W) (cond : Bool) (err_code : E)
    (err_fmtstring : String) (args : List VarArg) (m : Machine W) : Flow E W :=
  if !cond then
    Flow.returned err_code (NGFI_DIAG_ERROR code err_fmtstring args m)
  else Flow.next m

/-- The macro `NGFI_CHECK_FATAL(cond, err_fmtstring, ...)`:
`if (!(cond)) { NGFI_DIAG_ERROR(err_fmtstring, ##__VA_ARGS__); exit(1); }`. -/
def NGFI_CHECK_FATAL {E W : Type} (code : HostCode W) (cond : Bool)
    (err_fmtstring : String) (args : List VarArg) (m : Machine W) : Flow E W :=
  if !cond then
    Flow.exited 1 (NGFI_DIAG_ERROR code err_fmtstring args m)
  else Flow.next m

/-- The struct `ngfi_range` of macros.h: two `size_t` fields. -/
structure ngfi_range where
  first_idx : Nat
  last_idx : Nat
  deriving DecidableEq

/-- The 8 bytes that hold a `size_t` in memory, least significant first.  A `size_t`
has no padding bits. -/
def size_t_bytes (x : Nat) : List Nat :=
  [x % 256, x / 256 % 256, x / 256 ^ 2 % 256, x / 256 ^ 3 % 256, x / 256 ^ 4 % 256,
   x / 256 ^ 5 % 256, x / 256 ^ 6 % 256, x / 256 ^ 7 % 256]

/-- The bytes of an `ngfi_range` object: its two fields one after the other, with no
padding between or after them since both have the size and alignment of `size_t`. -/
def ngfi_range.bytes (r : ngfi_range) : List Nat :=
  size_t_bytes r.first_idx ++ size_t_bytes r.last_idx

/-- The value of `sizeof(ngfi_range)`. -/
def sizeof_ngfi_range : Nat := 16

/-- The C library function `memcmp(a, b, n)` on the bytes of two objects: 0 when the
first `n` bytes agree, otherwise the sign of the first difference.  Reading past the
end of an object gives `none`. -/
def memcmp : List Nat → List Nat → Nat → Option Int
  | _, _, 0 => some 0
  | a :: as, b :: bs, n + 1 =>
    if a = b then memcmp as bs n else if a < b then some (-1) else some 1
  | [], _, _ + 1 => none
  | _ :: _, [], _ + 1 => none

/-- The macro `NGFI_STRUCT_EQ(s1, s2)`:
`(sizeof(s1) == sizeof(s2) && memcmp((void*)&s1, (void*)&s2, sizeof(s1)) == 0)`,
on the bytes and sizes of the two objects.  When the sizes differ `memcmp` is not
called. -/
def NGFI_STRUCT_EQ (s1 s2 : List Nat) (sizeof_s1 sizeof_s2 : Nat) : Option Bool :=
  if sizeof_s1 = sizeof_s2 then
    match memcmp s1 s2 sizeof_s1 with
    | some c => some (decide (c = 0))
    | none => none
  else some false

/-- The macro `NGFI_STRUCT_EQ` applied to two objects of type `ngfi_range`. -/
def ngfi_range_struct_eq (a b : ngfi_range) : Option Bool :=
  NGFI_STRUCT_EQ a.bytes b.bytes sizeof_ngfi_range sizeof_ngfi_range

/-! ## Alignment -/

/-- Masking with `2 ^ n - 2 ^ k` keeps the bits `k .. n - 1`. -/
theorem and_high_mask (k n s : Nat) (hk : k ≤ n) :
    s &&& (2 ^ n - 2 ^ k) = 2 ^ k * ((s / 2 ^ k) % 2 ^ (n - k)) := by
  have hm : 2 ^ n - 2 ^ k = 2 ^ k * (2 ^ (n - k) - 1) := by
    have h1 : 2 ^ n = 2 ^ k * 2 ^ (n - k) := by
      rw [← pow_add]; congr 1; omega
    rw [h1, Nat.mul_sub, Nat.mul_one]
  rw [hm]
  apply Nat.eq_of_testBit_eq
  intro j
  rw [Nat.testBit_and, Nat.testBit_mul_pow_two, Nat.testBit_mul_pow_two,
    Nat.testBit_two_pow_sub_one, Nat.testBit_mod_two_pow, ← Nat.shiftRight_eq_div_pow,
    Nat.testBit_shiftRight]
  by_cases hj : j ≥ k
  · have hjk : k + (j - k) = j := by omega
    rw [hjk]
    cases s.testBit j <;> simp
  · simp [hj]

/-- Arithmetic form of `ngfi_align_size`: the masks become division and remainder. -/
theorem ngfi_align_size_closed (s : Nat) :
    ngfi_align_size s
      = (16 * ((s / 16) % 2 ^ 60) + (if s % 16 = 0 then 0 else 16)) % 2 ^ 64 := by
  have hq := and_high_mask 4 64 s (by decide)
  have hr := Nat.and_pow_two_sub_one_eq_mod s 4
  norm_num at hq hr
  simp only [ngfi_align_size, ngfi_align_size_at, NGFI_MAX_ALIGNMENT, size_add, size_sub,
    size_not, SIZE_MAX, SIZE_MOD, SIZE_BITS]
  norm_num
  rw [hq, hr]

/-- C1: for every size `s` with `s ≤ SIZE_MAX - (NGFI_MAX_ALIGNMENT - 1)`,
`ngfi_align_size s` is the smallest multiple of `NGFI_MAX_ALIGNMENT` that is at least
`s`: it is a multiple, it is at least `s`, every multiple that is at least `s` is at
least `ngfi_align_size s`, and it equals `ceil(s / 16) * 16`. -/
theorem ngfi_align_size_least_multiple (s : Nat)
    (h : s ≤ SIZE_MAX - (NGFI_MAX_ALIGNMENT - 1)) :
    NGFI_MAX_ALIGNMENT ∣ ngfi_align_size s ∧ s ≤ ngfi_align_size s ∧
      (∀ m, NGFI_MAX_ALIGNMENT ∣ m → s ≤ m → ngfi_align_size s ≤ m) ∧
      ngfi_align_size s
        = (s + (NGFI_MAX_ALIGNMENT - 1)) / NGFI_MAX_ALIGNMENT * NGFI_MAX_ALIGNMENT := by
  have hc := ngfi_align_size_closed s
  simp only [NGFI_MAX_ALIGNMENT, SIZE_MAX, SIZE_MOD, SIZE_BITS] at h ⊢
  norm_num at h hc
  refine ⟨?_, ?_, ?_, ?_⟩
  · apply Nat.dvd_of_mod_eq_zero
    split_ifs at hc <;> omega
  · split_ifs at hc <;> omega
  · intro m hm hsm
    obtain ⟨c, rfl⟩ := hm
    split_ifs at hc <;> omega
  · split_ifs at hc <;> omega

/-- C1 at `s = 17`, whose aligned size is 32. -/
theorem ngfi_align_size_least_multiple_witness :
    17 ≤ SIZE_MAX - (NGFI_MAX_ALIGNMENT - 1) ∧
      (NGFI_MAX_ALIGNMENT ∣ ngfi_align_size 17 ∧ 17 ≤ ngfi_align_size 17 ∧
        (∀ m, NGFI_MAX_ALIGNMENT ∣ m → 17 ≤ m → ngfi_align_size 17 ≤ m) ∧
        ngfi_align_size 17
          = (17 + (NGFI_MAX_ALIGNMENT - 1)) / NGFI_MAX_ALIGNMENT * NGFI_MAX_ALIGNMENT) :=
  ⟨by decide, ngfi_align_size_least_multiple 17 (by decide)⟩

/-- C2 fails as stated: at `s = SIZE_MAX` the sum `q + 16` wraps, the result is 0 and
so it is smaller than `s`. -/
theorem ngfi_align_size_ge_fails_at_size_max :
    SIZE_MAX ≤ SIZE_MAX ∧ ngfi_align_size SIZE_MAX = 0 ∧
      ¬ (ngfi_align_size SIZE_MAX ≥ SIZE_MAX) := by
  decide

/-- C2, amended: for a size `s` of type `size_t`, `ngfi_align_size s ≥ s` holds exactly
when `s ≤ SIZE_MAX - (NGFI_MAX_ALIGNMENT - 1)`. -/
theorem ngfi_align_size_ge_iff (s : Nat) (hs : s ≤ SIZE_MAX) :
    ngfi_align_size s ≥ s ↔ s ≤ SIZE_MAX - (NGFI_MAX_ALIGNMENT - 1) := by
  have hc := ngfi_align_size_closed s
  simp only [NGFI_MAX_ALIGNMENT, SIZE_MAX, SIZE_MOD, SIZE_BITS] at hs ⊢
  norm_num at hs hc ⊢
  split_ifs at hc <;> omega

/-- C2, amended, at the largest size for which the inequality holds. -/
theorem ngfi_align_size_ge_iff_witness :
    SIZE_MAX - 15 ≤ SIZE_MAX ∧
      (ngfi_align_size (SIZE_MAX - 15) ≥ SIZE_MAX - 15 ↔
        SIZE_MAX - 15 ≤ SIZE_MAX - (NGFI_MAX_ALIGNMENT - 1)) :=
  ⟨by decide, ngfi_align_size_ge_iff (SIZE_MAX - 15) (by decide)⟩

/-- C3: for every size `s`, wrapping included, `ngfi_align_size s` is a multiple of
`NGFI_MAX_ALIGNMENT`: `ngfi_align_size s % NGFI_MAX_ALIGNMENT = 0`. -/
theorem ngfi_align_size_mod_alignment (s : Nat) :
    ngfi_align_size s % NGFI_MAX_ALIGNMENT = 0 := by
  have hc := ngfi_align_size_closed s
  simp only [NGFI_MAX_ALIGNMENT]
  norm_num at hc
  split_ifs at hc <;> omega

/-- C4: `ngfi_align_size` is idempotent on every size `s`, wrapping included:
`ngfi_align_size (ngfi_align_size s) = ngfi_align_size s`. -/
theorem ngfi_align_size_idempotent (s : Nat) :
    ngfi_align_size (ngfi_align_size s) = ngfi_align_size s := by
  have hc := ngfi_align_size_closed s
  have hc2 := ngfi_align_size_closed (ngfi_align_size s)
  norm_num at hc hc2
  split_ifs at hc hc2 <;> omega

/-- C5: for every size `s` of type `size_t` that is a multiple of
`NGFI_MAX_ALIGNMENT`, `ngfi_align_size s = s`. -/
theorem ngfi_align_size_of_aligned (s : Nat) (hs : s ≤ SIZE_MAX)
    (hal : s % NGFI_MAX_ALIGNMENT = 0) : ngfi_align_size s = s := by
  have hc := ngfi_align_size_closed s
  simp only [NGFI_MAX_ALIGNMENT, SIZE_MAX, SIZE_MOD, SIZE_BITS] at hs hal
  norm_num at hs hc
  rw [if_pos hal] at hc
  omega

/-- C5 at the largest multiple of 16 that `size_t` holds. -/
theorem ngfi_align_size_of_aligned_witness :
    SIZE_MAX - 15 ≤ SIZE_MAX ∧ (SIZE_MAX - 15) % NGFI_MAX_ALIGNMENT = 0 ∧
      ngfi_align_size (SIZE_MAX - 15) = SIZE_MAX - 15 :=
  ⟨by decide, by decide,
    ngfi_align_size_of_aligned (SIZE_MAX - 15) (by decide) (by decide)⟩

/-! ## Allocation through `NGF_ALLOC_CB` -/

/-- C6: with `NGF_ALLOC_CB` holding a table `T`, whatever was installed before,
`NGFI_ALLOCN` calls `T.allocate` exactly once with `(sizeof(type), n, T.userdata)` and
evaluates to the result of that call, `NGFI_ALLOC` does so with count 1, and
`NGFI_FREEN` and `NGFI_FREE` call `T.free` exactly once with
`(ptr, sizeof(*ptr), n or 1, T.userdata)`; the call log grows by that one call only. -/
theorem alloc_free_routed_through_active_table {W : Type} (code : HostCode W)
    (T : ngf_allocation_callbacks) (m : Machine W)
    (hT : m.globals.NGF_ALLOC_CB = some T) (sizeof_type n : Nat) (ptr : Ptr) :
    NGFI_ALLOCN code sizeof_type n m
        = some ((code.allocate T.allocate sizeof_type n T.userdata m.globals).1,
            { globals := (code.allocate T.allocate sizeof_type n T.userdata m.globals).2,
              calls := m.calls ++ [Call.allocate T.allocate sizeof_type n T.userdata] }) ∧
      NGFI_ALLOC code sizeof_type m
        = some ((code.allocate T.allocate sizeof_type 1 T.userdata m.globals).1,
            { globals := (code.allocate T.allocate sizeof_type 1 T.userdata m.globals).2,
              calls := m.calls ++ [Call.allocate T.allocate sizeof_type 1 T.userdata] }) ∧
      NGFI_FREEN code ptr sizeof_type n m
        = some { globals := code.free T.free ptr sizeof_type n T.userdata m.globals,
                 calls := m.calls ++ [Call.free T.free ptr sizeof_type n T.userdata] } ∧
      NGFI_FREE code ptr sizeof_type m
        = some { globals := code.free T.free ptr sizeof_type 1 T.userdata m.globals,
                 calls := m.calls ++ [Call.free T.free ptr sizeof_type 1 T.userdata] } := by
  simp [NGFI_ALLOCN, NGFI_ALLOC, NGFI_FREEN, NGFI_FREE, hT]

/-- C6 on `sampleMachine`: 4 elements of 8 bytes, and a block at address 0x4000. -/
theorem alloc_free_routed_through_active_table_witness :
    sampleMachine.globals.NGF_ALLOC_CB = some sampleTable ∧
      (NGFI_ALLOCN inertHost 8 4 sampleMachine
          = some ((inertHost.allocate sampleTable.allocate 8 4 sampleTable.userdata
                    sampleMachine.globals).1,
              { globals := (inertHost.allocate sampleTable.allocate 8 4
                  sampleTable.userdata sampleMachine.globals).2,
                calls := sampleMachine.calls
                  ++ [Call.allocate sampleTable.allocate 8 4 sampleTable.userdata] }) ∧
        NGFI_ALLOC inertHost 8 sampleMachine
          = some ((inertHost.allocate sampleTable.allocate 8 1 sampleTable.userdata
                    sampleMachine.globals).1,
              { globals := (inertHost.allocate sampleTable.allocate 8 1
                  sampleTable.userdata sampleMachine.globals).2,
                calls := sampleMachine.calls
                  ++ [Call.allocate sampleTable.allocate 8 1 sampleTable.userdata] }) ∧
        NGFI_FREEN inertHost 0x4000 8 4 sampleMachine
          = some { globals := inertHost.free sampleTable.free 0x4000 8 4
                     sampleTable.userdata sampleMachine.globals,
                   calls := sampleMachine.calls
                     ++ [Call.free sampleTable.free 0x4000 8 4 sampleTable.userdata] } ∧
        NGFI_FREE inertHost 0x4000 8 sampleMachine
          = some { globals := inertHost.free sampleTable.free 0x4000 8 1
                     sampleTable.userdata sampleMachine.globals,
                   calls := sampleMachine.calls
                     ++ [Call.free sampleTable.free 0x4000 8 1 sampleTable.userdata] }) :=
  ⟨rfl, alloc_free_routed_through_active_table inertHost sampleTable sampleMachine rfl
    8 4 0x4000⟩

/-- C7 fails as stated: freeing the null pointer on `sampleMachine` does call the
`free` function of the table (at 0x200), once, with the null pointer, so the state
after the call is not the state before it. -/
theorem free_null_calls_table_free :
    sampleMachine.globals.NGF_ALLOC_CB = some sampleTable ∧
      Option.map Machine.calls (NGFI_FREE inertHost NULL 8 sampleMachine)
        = some [Call.free 0x200 NULL 8 1 0x10] ∧
      Option.map Machine.calls (NGFI_FREEN inertHost NULL 8 4 sampleMachine)
        = some [Call.free 0x200 NULL 8 4 0x10] ∧
      NGFI_FREE inertHost NULL 8 sampleMachine ≠ some sampleMachine ∧
      NGFI_FREEN inertHost NULL 8 4 sampleMachine ≠ some sampleMachine := by
  decide

/-- C7, amended: `NGFI_FREEN` and `NGFI_FREE` make no null check.  With a null pointer
they call `T.free` exactly once with `(NULL, sizeof(*ptr), n or 1, T.userdata)`, and the
globals afterwards are the ones that call leaves: unchanged when `T.free` leaves them
unchanged for a null pointer. -/
theorem free_null_forwarded_to_table {W : Type} (code : HostCode W)
    (T : ngf_allocation_callbacks) (m : Machine W)
    (hT : m.globals.NGF_ALLOC_CB = some T) (sizeof_pointee n : Nat) :
    NGFI_FREEN code NULL sizeof_pointee n m
        = some { globals := code.free T.free NULL sizeof_pointee n T.userdata m.globals,
                 calls := m.calls ++ [Call.free T.free NULL sizeof_pointee n T.userdata] } ∧
      NGFI_FREE code NULL sizeof_pointee m
        = some { globals := code.free T.free NULL sizeof_pointee 1 T.userdata m.globals,
                 calls := m.calls ++ [Call.free T.free NULL sizeof_pointee 1 T.userdata] } ∧
      (code.free T.free NULL sizeof_pointee n T.userdata m.globals = m.globals →
        Option.map Machine.globals (NGFI_FREEN code NULL sizeof_pointee n m)
          = some m.globals) ∧
      (code.free T.free NULL sizeof_pointee 1 T.userdata m.globals = m.globals →
        Option.map Machine.globals (NGFI_FREE code NULL sizeof_pointee m)
          = some m.globals) := by
  refine ⟨?_, ?_, ?_, ?_⟩
  · simp [NGFI_FREEN, hT]
  · simp [NGFI_FREE, hT]
  · intro h
    simp [NGFI_FREEN, hT, h]
  · intro h
    simp [NGFI_FREE, hT, h]

/-- C7, amended, on `sampleMachine` with an element size of 8 and a count of 4. -/
theorem free_null_forwarded_to_table_witness :
    sampleMachine.globals.NGF_ALLOC_CB = some sampleTable ∧
      (NGFI_FREEN inertHost NULL 8 4 sampleMachine
          = some { globals := inertHost.free sampleTable.free NULL 8 4
                     sampleTable.userdata sampleMachine.globals,
                   calls := sampleMachine.calls
                     ++ [Call.free sampleTable.free NULL 8 4 sampleTable.userdata] } ∧
        NGFI_FREE inertHost NULL 8 sampleMachine
          = some { globals := inertHost.free sampleTable.free NULL 8 1
                     sampleTable.userdata sampleMachine.globals,
                   calls := sampleMachine.calls
                     ++ [Call.free sampleTable.free NULL 8 1 sampleTable.userdata] } ∧
        (inertHost.free sampleTable.free NULL 8 4 sampleTable.userdata
            sampleMachine.globals = sampleMachine.globals →
          Option.map Machine.globals (NGFI_FREEN inertHost NULL 8 4 sampleMachine)
            = some sampleMachine.globals) ∧
        (inertHost.free sampleTable.free NULL 8 1 sampleTable.userdata
            sampleMachine.globals = sampleMachine.globals →
          Option.map Machine.globals (NGFI_FREE inertHost NULL 8 sampleMachine)
            = some sampleMachine.globals)) :=
  ⟨rfl, free_null_forwarded_to_table inertHost sampleTable sampleMachine rfl 8 4⟩

/-! ## Diagnostics through `ngfi_diag_info` -/

/-- The message texts of a log extended by one diagnostic call. -/
theorem diagMessages_append_diag (cs : List Call) (fn : FnPtr)
    (level : ngf_diagnostic_message_type) (userdata : Ptr) (fmt : String)
    (args : List VarArg) :
    diagMessages (cs ++ [Call.diag fn level userdata fmt args])
      = diagMessages cs ++ [fmt] := by
  induction cs with
  | nil => rfl
  | cons c cs ih => cases c <;> simp [diagMessages, ih]

/-- C8: when `ngfi_diag_info.callback` is null, `NGFI_DIAG_MSG` at any level and its
three fixed-level forms, with any format and arguments, return the state they were given:
no call is logged and no global, the diagnostic record included, is changed. -/
theorem diag_msg_without_callback {W : Type} (code : HostCode W) (m : Machine W)
    (hnull : m.globals.ngfi_diag_info.callback = NULL)
    (level : ngf_diagnostic_message_type) (fmt : String) (args : List VarArg) :
    NGFI_DIAG_MSG code level fmt args m = m ∧ NGFI_DIAG_INFO code fmt args m = m ∧
      NGFI_DIAG_WARNING code fmt args m = m ∧ NGFI_DIAG_ERROR code fmt args m = m := by
  simp [NGFI_DIAG_MSG, NGFI_DIAG_INFO, NGFI_DIAG_WARNING, NGFI_DIAG_ERROR, hnull]

/-- C8 on `quietMachine`, for a warning with one integer argument. -/
theorem diag_msg_without_callback_witness :
    quietMachine.globals.ngfi_diag_info.callback = NULL ∧
      (NGFI_DIAG_MSG inertHost ngf_diagnostic_message_type.NGF_DIAGNOSTIC_WARNING "x=%d"
          [VarArg.int 5] quietMachine = quietMachine ∧
        NGFI_DIAG_INFO inertHost "x=%d" [VarArg.int 5] quietMachine = quietMachine ∧
        NGFI_DIAG_WARNING inertHost "x=%d" [VarArg.int 5] quietMachine = quietMachine ∧
        NGFI_DIAG_ERROR inertHost "x=%d" [VarArg.int 5] quietMachine = quietMachine) :=
  ⟨rfl, diag_msg_without_callback inertHost quietMachine rfl
    ngf_diagnostic_message_type.NGF_DIAGNOSTIC_WARNING "x=%d" [VarArg.int 5]⟩

/-- C9: when the diagnostic record `D` has a non-null callback, `NGFI_DIAG_MSG` at
level `L` calls `D.callback` exactly once, with level `L` and `D.userdata`, and
`NGFI_DIAG_INFO`, `NGFI_DIAG_WARNING` and `NGFI_DIAG_ERROR` do so with the levels
Info, Warning and Error. -/
theorem diag_msg_calls_callback_once {W : Type} (code : HostCode W) (m : Machine W)
    (D : ngf_diagnostic_info) (hD : m.globals.ngfi_diag_info = D)
    (hcb : D.callback ≠ NULL) (L : ngf_diagnostic_message_type) (fmt : String)
    (args : List VarArg) :
    NGFI_DIAG_MSG code L fmt args m
        = { globals := code.diag D.callback L D.userdata fmt args m.globals,
            calls := m.calls ++ [Call.diag D.callback L D.userdata fmt args] } ∧
      NGFI_DIAG_INFO code fmt args m
        = { globals := code.diag D.callback
              ngf_diagnostic_message_type.NGF_DIAGNOSTIC_INFO D.userdata fmt args m.globals,
            calls := m.calls ++ [Call.diag D.callback
              ngf_diagnostic_message_type.NGF_DIAGNOSTIC_INFO D.userdata fmt args] } ∧
      NGFI_DIAG_WARNING code fmt args m
        = { globals := code.diag D.callback
              ngf_diagnostic_message_type.NGF_DIAGNOSTIC_WARNING D.userdata fmt args
              m.globals,
            calls := m.calls ++ [Call.diag D.callback
              ngf_diagnostic_message_type.NGF_DIAGNOSTIC_WARNING D.userdata fmt args] } ∧
      NGFI_DIAG_ERROR code fmt args m
        = { globals := code.diag D.callback
              ngf_diagnostic_message_type.NGF_DIAGNOSTIC_ERROR D.userdata fmt args
              m.globals,
            calls := m.calls ++ [Call.diag D.callback
              ngf_diagnostic_message_type.NGF_DIAGNOSTIC_ERROR D.userdata fmt args] } := by
  subst hD
  simp [NGFI_DIAG_MSG, NGFI_DIAG_INFO, NGFI_DIAG_WARNING, NGFI_DIAG_ERROR, hcb]

/-- C9 on `sampleMachine`, whose record has its callback at 0x300, for a message with
one integer argument. -/
theorem diag_msg_calls_callback_once_witness :
    sampleMachine.globals.ngfi_diag_info = sampleDiag ∧ sampleDiag.callback ≠ NULL ∧
      (NGFI_DIAG_MSG inertHost ngf_diagnostic_message_type.NGF_DIAGNOSTIC_WARNING "x=%d"
          [VarArg.int 5] sampleMachine
        = { globals := inertHost.diag sampleDiag.callback
              ngf_diagnostic_message_type.NGF_DIAGNOSTIC_WARNING sampleDiag.userdata "x=%d"
              [VarArg.int 5] sampleMachine.globals,
            calls := sampleMachine.calls ++ [Call.diag sampleDiag.callback
              ngf_diagnostic_message_type.NGF_DIAGNOSTIC_WARNING sampleDiag.userdata "x=%d"
              [VarArg.int 5]] } ∧
      NGFI_DIAG_INFO inertHost "x=%d" [VarArg.int 5] sampleMachine
        = { globals := inertHost.diag sampleDiag.callback
              ngf_diagnostic_message_type.NGF_DIAGNOSTIC_INFO sampleDiag.userdata "x=%d"
              [VarArg.int 5] sampleMachine.globals,
            calls := sampleMachine.calls ++ [Call.diag sampleDiag.callback
              ngf_diagnostic_message_type.NGF_DIAGNOSTIC_INFO sampleDiag.userdata "x=%d"
              [VarArg.int 5]] } ∧
      NGFI_DIAG_WARNING inertHost "x=%d" [VarArg.int 5] sampleMachine
        = { globals := inertHost.diag sampleDiag.callback
              ngf_diagnostic_message_type.NGF_DIAGNOSTIC_WARNING sampleDiag.userdata "x=%d"
              [VarArg.int 5] sampleMachine.globals,
            calls := sampleMachine.calls ++ [Call.diag sampleDiag.callback
              ngf_diagnostic_message_type.NGF_DIAGNOSTIC_WARNING sampleDiag.userdata "x=%d"
              [VarArg.int 5]] } ∧
      NGFI_DIAG_ERROR inertHost "x=%d" [VarArg.int 5] sampleMachine
        = { globals := inertHost.diag sampleDiag.callback
              ngf_diagnostic_message_type.NGF_DIAGNOSTIC_ERROR sampleDiag.userdata "x=%d"
              [VarArg.int 5] sampleMachine.globals,
            calls := sampleMachine.calls ++ [Call.diag sampleDiag.callback
              ngf_diagnostic_message_type.NGF_DIAGNOSTIC_ERROR sampleDiag.userdata "x=%d"
              [VarArg.int 5]] }) :=
  ⟨rfl, by decide, diag_msg_calls_callback_once inertHost sampleMachine sampleDiag rfl
    (by decide) ngf_diagnostic_message_type.NGF_DIAGNOSTIC_WARNING "x=%d" [VarArg.int 5]⟩

/-- C10 fails as stated: for `emit(Warning, "x=%d", 5)` on `sampleMachine` the callback
receives the template `"x=%d"` itself as its third argument, with 5 passed after it as
a separate argument; the text received does not contain the digit 5. -/
theorem diag_msg_passes_raw_template :
    sampleMachine.globals.ngfi_diag_info.callback ≠ NULL ∧
      (NGFI_DIAG_MSG inertHost ngf_diagnostic_message_type.NGF_DIAGNOSTIC_WARNING "x=%d"
          [VarArg.int 5] sampleMachine).calls
        = [Call.diag 0x300 ngf_diagnostic_message_type.NGF_DIAGNOSTIC_WARNING 0x20 "x=%d"
            [VarArg.int 5]] ∧
      diagMessages (NGFI_DIAG_MSG inertHost
          ngf_diagnostic_message_type.NGF_DIAGNOSTIC_WARNING "x=%d" [VarArg.int 5]
          sampleMachine).calls = ["x=%d"] ∧
      ¬ (∀ msg ∈ diagMessages (NGFI_DIAG_MSG inertHost
          ngf_diagnostic_message_type.NGF_DIAGNOSTIC_WARNING "x=%d" [VarArg.int 5]
          sampleMachine).calls, '5' ∈ msg.toList) := by
  decide

/-- C10, amended: when a diagnostic record is active, `NGFI_DIAG_MSG` does no
formatting.  The callback is called with the format template `fmt` unchanged as its
third argument, followed by the arguments `args` unchanged; substituting them is left
to the callback. -/
theorem diag_msg_forwards_template_and_args {W : Type} (code : HostCode W)
    (m : Machine W) (hcb : m.globals.ngfi_diag_info.callback ≠ NULL)
    (level : ngf_diagnostic_message_type) (fmt : String) (args : List VarArg) :
    (NGFI_DIAG_MSG code level fmt args m).calls
        = m.calls ++ [Call.diag m.globals.ngfi_diag_info.callback level
            m.globals.ngfi_diag_info.userdata fmt args] ∧
      diagMessages (NGFI_DIAG_MSG code level fmt args m).calls
        = diagMessages m.calls ++ [fmt] := by
  have hcalls : (NGFI_DIAG_MSG code level fmt args m).calls
      = m.calls ++ [Call.diag m.globals.ngfi_diag_info.callback level
          m.globals.ngfi_diag_info.userdata fmt args] := by
    simp [NGFI_DIAG_MSG, hcb]
  refine ⟨hcalls, ?_⟩
  rw [hcalls, diagMessages_append_diag]

/-- C10, amended, for `emit(Warning, "x=%d", 5)` on `sampleMachine`. -/
theorem diag_msg_forwards_template_and_args_witness :
    sampleMachine.globals.ngfi_diag_info.callback ≠ NULL ∧
      ((NGFI_DIAG_MSG inertHost ngf_diagnostic_message_type.NGF_DIAGNOSTIC_WARNING "x=%d"
            [VarArg.int 5] sampleMachine).calls
          = sampleMachine.calls ++ [Call.diag sampleMachine.globals.ngfi_diag_info.callback
              ngf_diagnostic_message_type.NGF_DIAGNOSTIC_WARNING
              sampleMachine.globals.ngfi_diag_info.userdata "x=%d" [VarArg.int 5]] ∧
        diagMessages (NGFI_DIAG_MSG inertHost
            ngf_diagnostic_message_type.NGF_DIAGNOSTIC_WARNING "x=%d" [VarArg.int 5]
            sampleMachine).calls
          = diagMessages sampleMachine.calls ++ ["x=%d"]) :=
  ⟨by decide, diag_msg_forwards_template_and_args inertHost sampleMachine (by decide)
    ngf_diagnostic_message_type.NGF_DIAGNOSTIC_WARNING "x=%d" [VarArg.int 5]⟩

/-! ## Precondition checks -/

/-- C11: `NGFI_CHECK_CONDITION` with a false condition performs exactly one emit at
level Error (one `NGFI_DIAG_ERROR`, which calls the callback once when one is installed
and not at all otherwise) and then returns `err_code`, for every `err_code`, running
none of the statements after it; with a true condition it emits nothing, leaves the
state as it is and goes on with the statements after it. -/
theorem check_condition_returns_or_continues {E W : Type} (code : HostCode W)
    (err_code : E) (err_fmtstring : String) (args : List VarArg) (m : Machine W)
    (rest : Machine W → Flow E W) :
    (NGFI_CHECK_CONDITION code false err_code err_fmtstring args m).andThen rest
        = Flow.returned err_code (NGFI_DIAG_ERROR code err_fmtstring args m) ∧
      (m.globals.ngfi_diag_info.callback ≠ NULL →
        (NGFI_DIAG_ERROR code err_fmtstring args m).calls
          = m.calls ++ [Call.diag m.globals.ngfi_diag_info.callback
              ngf_diagnostic_message_type.NGF_DIAGNOSTIC_ERROR
              m.globals.ngfi_diag_info.userdata err_fmtstring args]) ∧
      (m.globals.ngfi_diag_info.callback = NULL →
        NGFI_DIAG_ERROR code err_fmtstring args m = m) ∧
      NGFI_CHECK_CONDITION code true err_code err_fmtstring args m = Flow.next m ∧
      (NGFI_CHECK_CONDITION code true err_code err_fmtstring args m).andThen rest
        = rest m := by
  refine ⟨rfl, ?_, ?_, rfl, rfl⟩
  · intro hcb
    simp [NGFI_DIAG_ERROR, NGFI_DIAG_MSG, hcb]
  · intro hnull
    simp [NGFI_DIAG_ERROR, NGFI_DIAG_MSG, hnull]

/-- C11 on `sampleMachine`: a failed check with error code 7, followed by a statement
that would return 0. -/
theorem check_condition_returns_or_continues_witness :
    ((NGFI_CHECK_CONDITION inertHost false (7 : Nat) "bad index %d" [VarArg.int 3]
          sampleMachine).andThen (fun m => Flow.returned 0 m)
        = Flow.returned 7 (NGFI_DIAG_ERROR inertHost "bad index %d" [VarArg.int 3]
            sampleMachine) ∧
      (sampleMachine.globals.ngfi_diag_info.callback ≠ NULL →
        (NGFI_DIAG_ERROR inertHost "bad index %d" [VarArg.int 3] sampleMachine).calls
          = sampleMachine.calls ++ [Call.diag sampleMachine.globals.ngfi_diag_info.callback
              ngf_diagnostic_message_type.NGF_DIAGNOSTIC_ERROR
              sampleMachine.globals.ngfi_diag_info.userdata "bad index %d"
              [VarArg.int 3]]) ∧
      (sampleMachine.globals.ngfi_diag_info.callback = NULL →
        NGFI_DIAG_ERROR inertHost "bad index %d" [VarArg.int 3] sampleMachine
          = sampleMachine) ∧
      NGFI_CHECK_CONDITION inertHost true (7 : Nat) "bad index %d" [VarArg.int 3]
          sampleMachine = Flow.next sampleMachine ∧
      (NGFI_CHECK_CONDITION inertHost true (7 : Nat) "bad index %d" [VarArg.int 3]
          sampleMachine).andThen (fun m => Flow.returned 0 m)
        = Flow.returned 0 sampleMachine) ∧
      sampleMachine.globals.ngfi_diag_info.callback ≠ NULL ∧
      (NGFI_DIAG_ERROR inertHost "bad index %d" [VarArg.int 3] sampleMachine).calls
        = [Call.diag 0x300 ngf_diagnostic_message_type.NGF_DIAGNOSTIC_ERROR 0x20
            "bad index %d" [VarArg.int 3]] :=
  ⟨check_condition_returns_or_continues inertHost 7 "bad index %d" [VarArg.int 3]
    sampleMachine (fun m => Flow.returned 0 m), by decide, by decide⟩

/-- C12: `NGFI_CHECK_FATAL` with a false condition performs exactly one emit at level
Error (one `NGFI_DIAG_ERROR`, which calls the callback once when one is installed and
not at all otherwise) and then ends the process with exit status 1, which is not 0,
running none of the statements after it; with a true condition it emits nothing,
leaves the state as it is and goes on with the statements after it. -/
theorem check_fatal_exits_or_continues {E W : Type} (code : HostCode W)
    (err_fmtstring : String) (args : List VarArg) (m : Machine W)
    (rest : Machine W → Flow E W) :
    (NGFI_CHECK_FATAL code false err_fmtstring args m).andThen rest
        = Flow.exited 1 (NGFI_DIAG_ERROR code err_fmtstring args m) ∧
      (1 : Nat) ≠ 0 ∧
      (m.globals.ngfi_diag_info.callback ≠ NULL →
        (NGFI_DIAG_ERROR code err_fmtstring args m).calls
          = m.calls ++ [Call.diag m.globals.ngfi_diag_info.callback
              ngf_diagnostic_message_type.NGF_DIAGNOSTIC_ERROR
              m.globals.ngfi_diag_info.userdata err_fmtstring args]) ∧
      (m.globals.ngfi_diag_info.callback = NULL →
        NGFI_DIAG_ERROR code err_fmtstring args m = m) ∧
      (NGFI_CHECK_FATAL code true err_fmtstring args m : Flow E W) = Flow.next m ∧
      (NGFI_CHECK_FATAL code true err_fmtstring args m).andThen rest = rest m := by
  refine ⟨rfl, by decide, ?_, ?_, rfl, rfl⟩
  · intro hcb
    simp [NGFI_DIAG_ERROR, NGFI_DIAG_MSG, hcb]
  · intro hnull
    simp [NGFI_DIAG_ERROR, NGFI_DIAG_MSG, hnull]

/-- C12 on `quietMachine`, where no callback is installed: the process still exits
with status 1 and the statement after the check does not run. -/
theorem check_fatal_exits_or_continues_witness :
    ((NGFI_CHECK_FATAL inertHost false "corrupt" [] quietMachine).andThen
          (fun m => Flow.returned (0 : Nat) m)
        = Flow.exited 1 (NGFI_DIAG_ERROR inertHost "corrupt" [] quietMachine) ∧
      (1 : Nat) ≠ 0 ∧
      (quietMachine.globals.ngfi_diag_info.callback ≠ NULL →
        (NGFI_DIAG_ERROR inertHost "corrupt" [] quietMachine).calls
          = quietMachine.calls ++ [Call.diag quietMachine.globals.ngfi_diag_info.callback
              ngf_diagnostic_message_type.NGF_DIAGNOSTIC_ERROR
              quietMachine.globals.ngfi_diag_info.userdata "corrupt" []]) ∧
      (quietMachine.globals.ngfi_diag_info.callback = NULL →
        NGFI_DIAG_ERROR inertHost "corrupt" [] quietMachine = quietMachine) ∧
      (NGFI_CHECK_FATAL inertHost true "corrupt" [] quietMachine : Flow Nat Unit)
        = Flow.next quietMachine ∧
      (NGFI_CHECK_FATAL inertHost true "corrupt" [] quietMachine).andThen
          (fun m => Flow.returned (0 : Nat) m)
        = Flow.returned 0 quietMachine) ∧
      quietMachine.globals.ngfi_diag_info.callback = NULL :=
  ⟨check_fatal_exits_or_continues inertHost "corrupt" [] quietMachine
    (fun m => Flow.returned (0 : Nat) m), by decide⟩

/-! ## Structural equality of `ngfi_range` -/

/-- On two byte sequences of one length, `memcmp` over that length reads inside both
and gives 0 exactly when they are equal. -/
theorem memcmp_same_length (a b : List Nat) (h : a.length = b.length) :
    ∃ c, memcmp a b a.length = some c ∧ (c = 0 ↔ a = b) := by
  induction a generalizing b with
  | nil =>
    cases b with
    | nil => exact ⟨0, rfl, by simp⟩
    | cons y ys => simp at h
  | cons x xs ih =>
    cases b with
    | nil => simp at h
    | cons y ys =>
      have hlen : xs.length = ys.length := by simpa using h
      obtain ⟨c, hc, hiff⟩ := ih ys hlen
      by_cases hxy : x = y
      · refine ⟨c, ?_, ?_⟩
        · simp [memcmp, hxy, hc]
        · simp [hxy, hiff]
      · by_cases hlt : x < y
        · exact ⟨-1, by simp [memcmp, hxy, hlt], by simp [hxy]⟩
        · exact ⟨1, by simp [memcmp, hxy, hlt], by simp [hxy]⟩

/-- The bytes of a `size_t` determine its value. -/
theorem size_t_bytes_inj (x y : Nat) (hx : x ≤ SIZE_MAX) (hy : y ≤ SIZE_MAX)
    (h : size_t_bytes x = size_t_bytes y) : x = y := by
  simp only [SIZE_MAX, SIZE_MOD, SIZE_BITS] at hx hy
  simp only [size_t_bytes, List.cons.injEq, and_true] at h
  norm_num at hx hy h
  omega

/-- A `size_t` occupies 8 bytes. -/
theorem size_t_bytes_length (x : Nat) : (size_t_bytes x).length = 8 := rfl

/-- C13: for two `ngfi_range` values `a` and `b` (fields of type `size_t`),
`NGFI_STRUCT_EQ(a, b)` is defined and is true if and only if
`a.first_idx = b.first_idx` and `a.last_idx = b.last_idx`; a difference in either
field makes it false. -/
theorem ngfi_range_struct_eq_iff (a b : ngfi_range)
    (ha1 : a.first_idx ≤ SIZE_MAX) (ha2 : a.last_idx ≤ SIZE_MAX)
    (hb1 : b.first_idx ≤ SIZE_MAX) (hb2 : b.last_idx ≤ SIZE_MAX) :
    ngfi_range_struct_eq a b
        = some (decide (a.first_idx = b.first_idx ∧ a.last_idx = b.last_idx)) ∧
      (ngfi_range_struct_eq a b = some true ↔
        (a.first_idx = b.first_idx ∧ a.last_idx = b.last_idx)) ∧
      (a.first_idx ≠ b.first_idx ∨ a.last_idx ≠ b.last_idx →
        ngfi_range_struct_eq a b = some false) := by
  have hlen : a.bytes.length = b.bytes.length := rfl
  have hsz : sizeof_ngfi_range = a.bytes.length := rfl
  obtain ⟨c, hc, hiff⟩ := memcmp_same_length a.bytes b.bytes hlen
  have hbytes : a.bytes = b.bytes ↔
      (a.first_idx = b.first_idx ∧ a.last_idx = b.last_idx) := by
    constructor
    · intro hab
      have hsplit := List.append_inj hab (by rfl)
      exact ⟨size_t_bytes_inj _ _ ha1 hb1 hsplit.1, size_t_bytes_inj _ _ ha2 hb2 hsplit.2⟩
    · intro hf
      simp [ngfi_range.bytes, hf.1, hf.2]
  have hmain : ngfi_range_struct_eq a b
      = some (decide (a.first_idx = b.first_idx ∧ a.last_idx = b.last_idx)) := by
    unfold ngfi_range_struct_eq NGFI_STRUCT_EQ
    rw [if_pos rfl, hsz, hc]
    simp only [Option.some.injEq, decide_eq_decide]
    exact hiff.trans hbytes
  refine ⟨hmain, ?_, ?_⟩
  · rw [hmain]; simp
  · intro hne
    rw [hmain]
    simp only [Option.some.injEq, decide_eq_false_iff_not]
    intro hboth
    rcases hne with h1 | h2
    · exact h1 hboth.1
    · exact h2 hboth.2

/-- C13 on the ranges `[3, 9)` and `[3, 10)`, which differ in `last_idx` only. -/
theorem ngfi_range_struct_eq_iff_witness :
    (3 : Nat) ≤ SIZE_MAX ∧ (9 : Nat) ≤ SIZE_MAX ∧ (3 : Nat) ≤ SIZE_MAX ∧
      (10 : Nat) ≤ SIZE_MAX ∧
      (ngfi_range_struct_eq { first_idx := 3, last_idx := 9 }
            { first_idx := 3, last_idx := 10 }
          = some (decide ((3 : Nat) = 3 ∧ (9 : Nat) = 10)) ∧
        (ngfi_range_struct_eq { first_idx := 3, last_idx := 9 }
            { first_idx := 3, last_idx := 10 } = some true ↔
          ((3 : Nat) = 3 ∧ (9 : Nat) = 10)) ∧
        ((3 : Nat) ≠ 3 ∨ (9 : Nat) ≠ 10 →
          ngfi_range_struct_eq { first_idx := 3, last_idx := 9 }
            { first_idx := 3, last_idx := 10 } = some false)) :=
  ⟨by decide, by decide, by decide, by decide,
    ngfi_range_struct_eq_iff { first_idx := 3, last_idx := 9 }
      { first_idx := 3, last_idx := 10 } (by decide) (by decide) (by decide) (by decide)⟩

/-! ## Alignment: overflow, other alignments, monotonicity -/

/-- The quotient part `q = s & ~align_mask` of `ngfi_align_size`, in arithmetic form. -/
theorem ngfi_align_size_quotient (s : Nat) :
    s &&& size_not (size_sub NGFI_MAX_ALIGNMENT 1) = 16 * ((s / 16) % 2 ^ 60) := by
  have hq := and_high_mask 4 64 s (by decide)
  norm_num at hq
  simp only [NGFI_MAX_ALIGNMENT, size_sub, size_not, SIZE_MAX, SIZE_MOD, SIZE_BITS]
  norm_num
  exact hq

/-- C14: for every size `s` with `SIZE_MAX - (NGFI_MAX_ALIGNMENT - 1) < s ≤ SIZE_MAX`
(the 15 largest values), `s` is not a multiple of `NGFI_MAX_ALIGNMENT`, the sum
`q + NGFI_MAX_ALIGNMENT` is exactly `2 ^ 64` and so wraps, and
`ngfi_align_size s = 0`. -/
theorem ngfi_align_size_wraps_to_zero (s : Nat)
    (hlo : SIZE_MAX - (NGFI_MAX_ALIGNMENT - 1) < s) (hhi : s ≤ SIZE_MAX) :
    s % NGFI_MAX_ALIGNMENT ≠ 0 ∧
      (s &&& size_not (size_sub NGFI_MAX_ALIGNMENT 1)) + NGFI_MAX_ALIGNMENT = SIZE_MOD ∧
      ngfi_align_size s = 0 := by
  have hc := ngfi_align_size_closed s
  have hq := ngfi_align_size_quotient s
  rw [hq]
  simp only [NGFI_MAX_ALIGNMENT, SIZE_MAX, SIZE_MOD, SIZE_BITS] at hlo hhi ⊢
  norm_num at hlo hhi hc ⊢
  refine ⟨by omega, by omega, ?_⟩
  split_ifs at hc <;> omega

/-- C14 at `s = SIZE_MAX - 14`, the smallest size that wraps. -/
theorem ngfi_align_size_wraps_to_zero_witness :
    SIZE_MAX - (NGFI_MAX_ALIGNMENT - 1) < SIZE_MAX - 14 ∧ SIZE_MAX - 14 ≤ SIZE_MAX ∧
      ((SIZE_MAX - 14) % NGFI_MAX_ALIGNMENT ≠ 0 ∧
        ((SIZE_MAX - 14) &&& size_not (size_sub NGFI_MAX_ALIGNMENT 1))
          + NGFI_MAX_ALIGNMENT = SIZE_MOD ∧
        ngfi_align_size (SIZE_MAX - 14) = 0) :=
  ⟨by decide, by decide,
    ngfi_align_size_wraps_to_zero (SIZE_MAX - 14) (by decide) (by decide)⟩

/-- Arithmetic form of the computation for an alignment `2 ^ k` with `k ≤ 63`. -/
theorem ngfi_align_size_at_pow_closed (k s : Nat) (hk : k ≤ 63) :
    ngfi_align_size_at (2 ^ k) s
      = (2 ^ k * ((s / 2 ^ k) % 2 ^ (64 - k)) + (if s % 2 ^ k = 0 then 0 else 2 ^ k))
          % 2 ^ 64 := by
  have hpos : 1 ≤ 2 ^ k := Nat.one_le_two_pow
  have hlt : 2 ^ k < 2 ^ 64 := Nat.pow_lt_pow_right (by decide) (by omega)
  have hmask : size_sub (2 ^ k) 1 = 2 ^ k - 1 := by
    simp only [size_sub, SIZE_MOD, SIZE_BITS]
    rw [Nat.mod_eq_of_lt hlt, Nat.mod_eq_of_lt (by decide : 1 < 2 ^ 64)]
    have h1 : 2 ^ k + 2 ^ 64 - 1 = (2 ^ k - 1) + 2 ^ 64 := by omega
    rw [h1, Nat.add_mod_right, Nat.mod_eq_of_lt (by omega)]
  have hnot : size_not (2 ^ k - 1) = 2 ^ 64 - 2 ^ k := by
    simp only [size_not, SIZE_MAX, SIZE_MOD, SIZE_BITS]
    rw [Nat.mod_eq_of_lt (by omega)]
    omega
  simp only [ngfi_align_size_at, hmask, hnot, size_add, SIZE_MOD, SIZE_BITS]
  rw [and_high_mask k 64 s (by omega), Nat.and_pow_two_sub_one_eq_mod]

/-- C15: for every alignment `A = 2 ^ k` with `A ≤ 2 ^ 63` in place of
`NGFI_MAX_ALIGNMENT` and every size `s ≤ SIZE_MAX - (A - 1)`, the mask-based
computation gives `ceil(s / A) * A`, which is a multiple of `A`, is at least `s`, and
is at most every multiple of `A` that is at least `s`. -/
theorem ngfi_align_size_at_pow_two (k s : Nat) (hk : k ≤ 63)
    (hs : s ≤ SIZE_MAX - (2 ^ k - 1)) :
    ngfi_align_size_at (2 ^ k) s = (s + (2 ^ k - 1)) / 2 ^ k * 2 ^ k ∧
      2 ^ k ∣ ngfi_align_size_at (2 ^ k) s ∧ s ≤ ngfi_align_size_at (2 ^ k) s ∧
      (∀ m, 2 ^ k ∣ m → s ≤ m → ngfi_align_size_at (2 ^ k) s ≤ m) := by
  have hc := ngfi_align_size_at_pow_closed k s hk
  have hApos : 0 < 2 ^ k := Nat.two_pow_pos k
  have hsplit : 2 ^ k * 2 ^ (64 - k) = 2 ^ 64 := by
    rw [← pow_add]; congr 1; omega
  generalize hA : 2 ^ k = A at *
  generalize hN : 2 ^ (64 - k) = N at *
  simp only [SIZE_MAX, SIZE_MOD, SIZE_BITS] at hs
  have hdm : A * (s / A) + s % A = s := Nat.div_add_mod s A
  have hr : s % A < A := Nat.mod_lt s hApos
  -- the quotient fits below `N`
  have hdN : s / A < N := by
    apply (Nat.div_lt_iff_lt_mul hApos).2
    rw [Nat.mul_comm, hsplit]
    omega
  rw [Nat.mod_eq_of_lt hdN] at hc
  by_cases hr0 : s % A = 0
  · rw [if_pos hr0] at hc
    have hs_eq : A * (s / A) = s := by omega
    have hval : ngfi_align_size_at A s = s := by
      rw [hc, Nat.add_zero, hs_eq]
      exact Nat.mod_eq_of_lt (by omega)
    have hceil : (s + (A - 1)) / A = s / A := by
      apply Nat.div_eq_of_lt_le
      · rw [Nat.mul_comm]; omega
      · rw [Nat.add_mul, Nat.one_mul, Nat.mul_comm]; omega
    refine ⟨?_, ?_, ?_, ?_⟩
    · rw [hval, hceil, Nat.mul_comm]; exact hs_eq.symm
    · rw [hval]; exact Nat.dvd_of_mod_eq_zero hr0
    · rw [hval]
    · intro m _ hsm
      rw [hval]; exact hsm
  · rw [if_neg hr0] at hc
    have hnext : A * (s / A) + A = A * (s / A + 1) := by
      rw [Nat.mul_add, Nat.mul_one]
    have hbound : A * (s / A) + A < 2 ^ 64 := by
      have hle : A * (s / A + 1) ≤ A * N := Nat.mul_le_mul_left A hdN
      rw [hsplit] at hle
      omega
    have hval : ngfi_align_size_at A s = A * (s / A + 1) := by
      rw [hc, Nat.mod_eq_of_lt hbound, hnext]
    have hceil : (s + (A - 1)) / A = s / A + 1 := by
      apply Nat.div_eq_of_lt_le
      · rw [Nat.mul_comm, ← hnext]; omega
      · rw [Nat.add_mul, Nat.one_mul, Nat.mul_comm (s / A + 1), ← hnext]; omega
    refine ⟨?_, ?_, ?_, ?_⟩
    · rw [hval, hceil, Nat.mul_comm]
    · rw [hval]; exact Nat.dvd_mul_right A _
    · rw [hval, ← hnext]; omega
    · intro m hm hsm
      obtain ⟨c, rfl⟩ := hm
      rw [hval]
      apply Nat.mul_le_mul_left
      by_contra hlt
      have hcle : c ≤ s / A := by omega
      have hmul : A * c ≤ A * (s / A) := Nat.mul_le_mul_left A hcle
      omega

/-- C15 at the largest alignment, `A = 2 ^ 63`, and the size 5. -/
theorem ngfi_align_size_at_pow_two_witness :
    63 ≤ 63 ∧ 5 ≤ SIZE_MAX - (2 ^ 63 - 1) ∧
      (ngfi_align_size_at (2 ^ 63) 5 = (5 + (2 ^ 63 - 1)) / 2 ^ 63 * 2 ^ 63 ∧
        2 ^ 63 ∣ ngfi_align_size_at (2 ^ 63) 5 ∧ 5 ≤ ngfi_align_size_at (2 ^ 63) 5 ∧
        (∀ m, 2 ^ 63 ∣ m → 5 ≤ m → ngfi_align_size_at (2 ^ 63) 5 ≤ m)) :=
  ⟨by decide, by decide, ngfi_align_size_at_pow_two 63 5 (by decide) (by decide)⟩

/-- C16: the computation relies on the alignment being a power of two.  With
`A = 12`, the size of `long double` on 32-bit x86, and `s = 4`, the mask is 11, the
quotient part is 4 and the remainder part is 0, so the result is 4, which is not a
multiple of 12. -/
theorem ngfi_align_size_at_twelve_not_multiple :
    size_sub 12 1 = 11 ∧ 4 &&& size_not (size_sub 12 1) = 4 ∧
      4 &&& size_sub 12 1 = 0 ∧ ngfi_align_size_at 12 4 = 4 ∧
      ngfi_align_size_at 12 4 % 12 ≠ 0 ∧ ∃ s, ¬ (12 ∣ ngfi_align_size_at 12 s) := by
  refine ⟨by decide, by decide, by decide, by decide, by decide, 4, by decide⟩

/-- C17: `ngfi_align_size` is monotone where it does not wrap: for
`s ≤ t ≤ SIZE_MAX - (NGFI_MAX_ALIGNMENT - 1)`,
`ngfi_align_size s ≤ ngfi_align_size t`. -/
theorem ngfi_align_size_monotone (s t : Nat) (hst : s ≤ t)
    (ht : t ≤ SIZE_MAX - (NGFI_MAX_ALIGNMENT - 1)) :
    ngfi_align_size s ≤ ngfi_align_size t := by
  have hcs := ngfi_align_size_closed s
  have hct := ngfi_align_size_closed t
  simp only [NGFI_MAX_ALIGNMENT, SIZE_MAX, SIZE_MOD, SIZE_BITS] at ht
  norm_num at ht hcs hct
  split_ifs at hcs hct <;> omega

/-- C17 at `s = 16` and `t = 17`, whose aligned sizes are 16 and 32. -/
theorem ngfi_align_size_monotone_witness :
    16 ≤ 17 ∧ 17 ≤ SIZE_MAX - (NGFI_MAX_ALIGNMENT - 1) ∧
      ngfi_align_size 16 ≤ ngfi_align_size 17 :=
  ⟨by decide, by decide, ngfi_align_size_monotone 16 17 (by decide) (by decide)⟩

end Nicegraf
